import Mathlib

/-!
Verification development for the classic NetCDF ("CDF") binary reader
(`src/reader.rs`, `src/consts.rs`).  The reader is shallowly embedded:
a seekable byte source becomes a `Source` (byte list plus cursor), every
`read_*` helper becomes a state-passing function returning a `PResult`,
and `NCFile::new` with its section/attribute/variable parsers is
translated function by function.  Machine integers are modelled as `Nat`
with explicit `% 256` / `% 2^32` where the Rust code truncates; `i16`,
`i32` values are `Int` obtained by two's-complement reinterpretation;
`f32` / `f64` values are kept as their big-endian bit patterns (`Nat`),
which is all the reader ever computes before handing them to callers.
-/

/-- A seekable, readable byte source: the byte list and the cursor.
Models `R: io::Read + io::Seek` as instantiated by an in-memory stream. -/
structure Source where
  data : List Nat
  pos : Nat
deriving DecidableEq

/-- `ParseError` taxonomy of `reader.rs`: errors converted from
`io::Error` (short read), from `FromUtf8Error`, and ones built with
`ParseError::new(reason)`. -/
inductive PError where
  | ioError
  | utf8Error
  | formatError (reason : String)
deriving DecidableEq

/-- Outcome of a fallible reader step: Rust's `Result<T, ParseError>`
plus a distinct `panicked` outcome, needed because
`validate_magic_number` calls `.unwrap()` on the magic-byte read. -/
inductive PResult (α : Type) where
  | ok (a : α) (s : Source)
  | err (e : PError)
  | panicked
deriving DecidableEq

def PResult.bind {α β : Type} : PResult α → (α → Source → PResult β) → PResult β
  | .ok a s, f => f a s
  | .err e, _ => .err e
  | .panicked, _ => .panicked

/-- `Read::read_exact` into an `n`-byte buffer: succeeds exactly when
`n` bytes remain at the cursor, else the propagated I/O error. -/
def readExact (s : Source) (n : Nat) : PResult (List Nat) :=
  if s.pos + n ≤ s.data.length then
    .ok ((s.data.drop s.pos).take n) ⟨s.data, s.pos + n⟩
  else
    .err .ioError

/-- `r.seek(SeekFrom::Current(k))` for `k ≥ 0` (the reader only ever
uses 0 and 4): moves the cursor and returns the new position. -/
def seekCurrent (s : Source) (k : Nat) : PResult Nat :=
  .ok (s.pos + k) ⟨s.data, s.pos + k⟩

/-- `r.seek(SeekFrom::Start(o))`: absolute seek, returns `o`. -/
def seekStart (s : Source) (o : Nat) : PResult Nat :=
  .ok o ⟨s.data, o⟩

/-- Big-endian value of a byte list (`uN::from_be_bytes`). -/
def beNat (bs : List Nat) : Nat := bs.foldl (fun a b => a * 256 + b) 0

/-- The 4-byte big-endian encoding of `t` (low 32 bits). -/
def be4 (t : Nat) : List Nat :=
  [t / 16777216 % 256, t / 65536 % 256, t / 256 % 256, t % 256]

/-- Two's-complement reinterpretation of a 16-bit pattern (`i16::from_be_bytes`). -/
def toI16 (n : Nat) : Int := if n < 32768 then (n : Int) else (n : Int) - 65536

/-- Two's-complement reinterpretation of a 32-bit pattern (`i32::from_be_bytes`). -/
def toI32 (n : Nat) : Int :=
  if n < 2147483648 then (n : Int) else (n : Int) - 4294967296

/-- `read_u8`. -/
def read_u8 (s : Source) : PResult Nat :=
  (readExact s 1).bind fun buf s => .ok (buf.getD 0 0) s

/-- `read_u32`: 4 bytes, big-endian. -/
def read_u32 (s : Source) : PResult Nat :=
  (readExact s 4).bind fun buf s => .ok (beNat buf) s

/-- `read_u64`: 8 bytes, big-endian. -/
def read_u64 (s : Source) : PResult Nat :=
  (readExact s 8).bind fun buf s => .ok (beNat buf) s

/-- `read_i32`. -/
def read_i32 (s : Source) : PResult Int :=
  (readExact s 4).bind fun buf s => .ok (toI32 (beNat buf)) s

/-- `read_f32`, with the value kept as its 32-bit big-endian pattern. -/
def read_f32 (s : Source) : PResult Nat :=
  (readExact s 4).bind fun buf s => .ok (beNat buf) s

/-- `read_f64`, with the value kept as its 64-bit big-endian pattern. -/
def read_f64 (s : Source) : PResult Nat :=
  (readExact s 8).bind fun buf s => .ok (beNat buf) s

/-- `read_bytes_padded`: reads `len` rounded up to the next multiple of
4 bytes and returns the whole (padded) buffer. -/
def read_bytes_padded (s : Source) (len : Nat) : PResult (List Nat) :=
  readExact s (if len % 4 = 0 then len else len + (4 - len % 4))

/-- `read_bytes`: padded read truncated back to the first `len` bytes. -/
def read_bytes (s : Source) (len : Nat) : PResult (List Nat) :=
  (read_bytes_padded s len).bind fun buf s => .ok (buf.take len) s

/-- `read_i16_padded`: a 2-byte value read through a 4-byte padded
buffer; only the buffer's first two bytes feed `i16::from_be_bytes`. -/
def read_i16_padded (s : Source) : PResult Int :=
  (read_bytes_padded s 2).bind fun raw s =>
    .ok (toI16 (raw.getD 0 0 * 256 + raw.getD 1 0)) s

/-- The `for _ in 0..len { vals.push(f(r)?) }` loop shape shared by all
the list readers in `reader.rs`. -/
def parseList {α : Type} (f : Source → PResult α) : Nat → Source → PResult (List α)
  | 0, s => .ok [] s
  | n + 1, s =>
    (f s).bind fun a s =>
      (parseList f n s).bind fun as s => .ok (a :: as) s

/-- `read_i16_padded_list`. -/
def read_i16_padded_list (len : Nat) (s : Source) : PResult (List Int) :=
  parseList read_i16_padded len s

/-- `read_i32_list`. -/
def read_i32_list (len : Nat) (s : Source) : PResult (List Int) :=
  parseList read_i32 len s

/-- `read_f32_list`. -/
def read_f32_list (len : Nat) (s : Source) : PResult (List Nat) :=
  parseList read_f32 len s

/-- `read_f64_list`. -/
def read_f64_list (len : Nat) (s : Source) : PResult (List Nat) :=
  parseList read_f64 len s

/-- The dimension-id loop in `parse_var` (`for _ in 0..dimlen { dimids.push(read_u32(r)?) }`). -/
def read_u32_list (len : Nat) (s : Source) : PResult (List Nat) :=
  parseList read_u32 len s

/-- Continuation byte test for UTF-8 (`0x80..=0xBF`). -/
def isCont (c : Nat) : Bool := 0x80 ≤ c && c ≤ 0xBF

/-- `String::from_utf8` as used by `read_string` and
`validate_magic_number`: standard UTF-8 validation and decoding
(rejecting overlong forms, surrogates and codepoints above `0x10FFFF`),
`none` on invalid input. -/
def utf8Decode : List Nat → Option (List Char)
  | [] => some []
  | b :: rest =>
    if b < 0x80 then
      (utf8Decode rest).map (fun cs => Char.ofNat b :: cs)
    else
      match rest with
      | [] => none
      | c1 :: r1 =>
        if 0xC2 ≤ b ∧ b ≤ 0xDF ∧ isCont c1 then
          (utf8Decode r1).map
            (fun cs => Char.ofNat ((b - 0xC0) * 64 + (c1 - 0x80)) :: cs)
        else
          match r1 with
          | [] => none
          | c2 :: r2 =>
            if ((b = 0xE0 ∧ 0xA0 ≤ c1 ∧ c1 ≤ 0xBF) ∨
                (0xE1 ≤ b ∧ b ≤ 0xEC ∧ isCont c1) ∨
                (b = 0xED ∧ 0x80 ≤ c1 ∧ c1 ≤ 0x9F) ∨
                (0xEE ≤ b ∧ b ≤ 0xEF ∧ isCont c1)) ∧ isCont c2 then
              (utf8Decode r2).map
                (fun cs =>
                  Char.ofNat ((b - 0xE0) * 4096 + (c1 - 0x80) * 64 + (c2 - 0x80)) :: cs)
            else
              match r2 with
              | [] => none
              | c3 :: r3 =>
                if ((b = 0xF0 ∧ 0x90 ≤ c1 ∧ c1 ≤ 0xBF) ∨
                    (0xF1 ≤ b ∧ b ≤ 0xF3 ∧ isCont c1) ∨
                    (b = 0xF4 ∧ 0x80 ≤ c1 ∧ c1 ≤ 0x8F)) ∧ isCont c2 ∧ isCont c3 then
                  (utf8Decode r3).map
                    (fun cs =>
                      Char.ofNat ((b - 0xF0) * 262144 + (c1 - 0x80) * 4096 +
                        (c2 - 0x80) * 64 + (c3 - 0x80)) :: cs)
                else none

/-- `read_string`: u32 length prefix, padded byte block, UTF-8 decode. -/
def read_string (s : Source) : PResult (List Char) :=
  (read_u32 s).bind fun len s =>
  (read_bytes s len).bind fun buf s =>
  match utf8Decode buf with
  | some cs => .ok cs s
  | none => .err .utf8Error

/-- `consts.rs`: section tag markers (each stored as the low byte of a
big-endian 32-bit field). -/
def NC_DIMENSION : Nat := 0x0a

/-- `consts.rs`: variable section marker. -/
def NC_VARIABLE : Nat := 0x0b

/-- `consts.rs`: attribute section marker. -/
def NC_ATTRIBUTE : Nat := 0x0c

/-- `NCDimension`. -/
structure NCDimension where
  name : List Char
  length : Nat
deriving DecidableEq

/-- `NCAttribute`: name plus type-tagged value array.  Rust's
`NCAttributeContainer<T>` per variant is inlined as (name, values);
float/double values are kept as their big-endian bit patterns. -/
inductive NCAttribute where
  | byte (name : List Char) (values : List Nat)
  | char (name : List Char) (values : List Char)
  | short (name : List Char) (values : List Int)
  | int (name : List Char) (values : List Int)
  | float (name : List Char) (values : List Nat)
  | double (name : List Char) (values : List Nat)
deriving DecidableEq

/-- The element-type discriminant of `NCVariable`'s six variants. -/
inductive NCType where
  | byte
  | char
  | short
  | int
  | float
  | double
deriving DecidableEq

/-- `NCVariable`: Rust's enum of six `NCVariableContainer<T>` variants,
flattened to a type tag plus the container fields; `data` is the raw
captured byte block held by `NCData<T>`. -/
structure NCVariable where
  type : NCType
  name : List Char
  dimids : List Nat
  attributes : List NCAttribute
  data : List Nat
deriving DecidableEq

/-- `NCFile`.  The Rust field `variables` is spelled `vars` here because
`variables` is a reserved token in Lean. -/
structure NCFile where
  version : Nat
  numrecs : Nat
  dimensions : List NCDimension
  attributes : List NCAttribute
  vars : List NCVariable
deriving DecidableEq

/-- `NCFile::validate_magic_number`: reads 3 bytes with
`read_exact(..).unwrap()` — an exhausted source PANICS here — then
UTF-8-decodes them (`?`, propagated) and compares against `"CDF"`. -/
def validate_magic_number (s : Source) : PResult Unit :=
  match readExact s 3 with
  | .ok buf s =>
    match utf8Decode buf with
    | some magic =>
      if magic = ['C', 'D', 'F'] then .ok () s
      else .err (.formatError "incorrect magic number")
    | none => .err .utf8Error
  | .err _ => .panicked
  | .panicked => .panicked

/-- `NCFile::parse_dim`. -/
def parse_dim (s : Source) : PResult NCDimension :=
  (read_string s).bind fun name s =>
  (read_u32 s).bind fun dimlen s =>
  .ok ⟨name, dimlen⟩ s

/-- `NCFile::parse_dimlist`. -/
def parse_dimlist (s : Source) : PResult (List NCDimension) :=
  (read_u32 s).bind fun len s => parseList parse_dim len s

/-- `NCFile::parse_attr`: name, then `read_u32(r)? as u8` type tag
(note the truncation to the low byte), then the per-type value array.
Rust's `match` against the constants `NC_BYTE = 1 .. NC_DOUBLE = 6` is
rendered as the equivalent equality chain. -/
def parse_attr (s : Source) : PResult NCAttribute :=
  (read_string s).bind fun name s =>
  (read_u32 s).bind fun t s =>
  if t % 256 = 1 then
    (read_u32 s).bind fun len s =>
    (read_bytes s len).bind fun bs s => .ok (.byte name bs) s
  else if t % 256 = 2 then
    (read_string s).bind fun str s => .ok (.char name str) s
  else if t % 256 = 3 then
    (read_u32 s).bind fun len s =>
    (read_i16_padded_list len s).bind fun vs s => .ok (.short name vs) s
  else if t % 256 = 4 then
    (read_u32 s).bind fun len s =>
    (read_i32_list len s).bind fun vs s => .ok (.int name vs) s
  else if t % 256 = 5 then
    (read_u32 s).bind fun len s =>
    (read_f32_list len s).bind fun vs s => .ok (.float name vs) s
  else if t % 256 = 6 then
    (read_u32 s).bind fun len s =>
    (read_f64_list len s).bind fun vs s => .ok (.double name vs) s
  else .err (.formatError "unknown type")

/-- `NCFile::parse_attrlist`. -/
def parse_attrlist (s : Source) : PResult (List NCAttribute) :=
  (read_u32 s).bind fun len s => parseList parse_attr len s

/-- The data-type match of `parse_var` (`NC_BYTE => .. NC_DOUBLE => ..`),
on the already-truncated tag byte, as an equality chain. -/
def typeOfTag (t : Nat) : Option NCType :=
  if t = 1 then some .byte
  else if t = 2 then some .char
  else if t = 3 then some .short
  else if t = 4 then some .int
  else if t = 5 then some .float
  else if t = 6 then some .double
  else none

/-- The header fields of one variable descriptor, i.e. everything
`NCFile::parse_var` reads from the header stream before its seek to the
data offset: name, dim ids, the skipped 4-byte attribute-flag slot, the
attribute list, `read_u32(r)? as u8` type tag, `vsize`, and the offset
(4 bytes when `version == 1`, 8 bytes otherwise). -/
def parse_var_header (version : Nat) (s : Source) :
    PResult (List Char × List Nat × List NCAttribute × Nat × Nat × Nat) :=
  (read_string s).bind fun name s =>
  (read_u32 s).bind fun dimlen s =>
  (read_u32_list dimlen s).bind fun dimids s =>
  (seekCurrent s 4).bind fun _ s =>
  (parse_attrlist s).bind fun attributes s =>
  (read_u32 s).bind fun t s =>
  (read_u32 s).bind fun vsize s =>
  (if version = 1 then read_u32 s else read_u64 s).bind fun offset s =>
  .ok (name, dimids, attributes, t % 256, vsize, offset) s

/-- `NCFile::parse_var`: header fields, then the seek protocol — record
the position (`was`), seek to the offset, capture `vsize` bytes, build
the variable (an unknown type tag returns the error *before* the
restoring seek, exactly as in the source), then seek back to `was`. -/
def parse_var (version : Nat) (s : Source) : PResult NCVariable :=
  (parse_var_header version s).bind fun h s =>
  match h with
  | (name, dimids, attributes, nctype, vsize, offset) =>
    (seekCurrent s 0).bind fun was s =>
    (seekStart s offset).bind fun _ s =>
    (read_bytes s vsize).bind fun data s =>
    match typeOfTag nctype with
    | some ty =>
      (seekStart s was).bind fun _ s =>
      .ok ⟨ty, name, dimids, attributes, data⟩ s
    | none => .err (.formatError "unknown type")

/-- `NCFile::parse_varlist`. -/
def parse_varlist (version : Nat) (s : Source) : PResult (List NCVariable) :=
  (read_u32 s).bind fun len s => parseList (parse_var version) len s

/-- One `Expect*Section` step of `NCFile::new`: read the 4-byte tag
field, truncate to its low byte (`as u8`), and either run the section's
list decoder or skip 4 further bytes leaving the list empty.  This is
the `if <flag> == NC_* { .. } else { r.seek(Current(4)) }` block that
`NCFile::new` repeats verbatim for the dimension, attribute and
variable sections. -/
def read_section {α : Type} (marker : Nat) (p : Source → PResult (List α))
    (s : Source) : PResult (List α) :=
  (read_u32 s).bind fun flag s =>
  if flag % 256 = marker then p s
  else (seekCurrent s 4).bind fun _ s => .ok [] s

/-- `NCFile::new`: magic, version, numrecs, then the three tagged
sections in file order. -/
def NCFile.new (s : Source) : PResult NCFile :=
  (validate_magic_number s).bind fun _ s =>
  (read_u8 s).bind fun version s =>
  (read_u32 s).bind fun numrecs s =>
  (read_section NC_DIMENSION parse_dimlist s).bind fun dims s =>
  (read_section NC_ATTRIBUTE parse_attrlist s).bind fun attrs s =>
  (read_section NC_VARIABLE (parse_varlist version) s).bind fun vars s =>
  .ok ⟨version, numrecs, dims, attrs, vars⟩ s

/-- `NCDataIter<'a, T>`: borrowed byte block plus cursor. -/
structure NCDataIter where
  raw : List Nat
  pos : Nat
deriving DecidableEq

/-- `NCDataIter::check_pos` for element size `size`. -/
def check_pos (size : Nat) (it : NCDataIter) : Option Unit :=
  if it.pos + size > it.raw.length then none else some ()

/-- `Iterator for NCDataIter<'_, u8>`: `next()`, returning the value
and the advanced iterator. -/
def NCDataIter.nextU8 (it : NCDataIter) : Option (Nat × NCDataIter) :=
  (check_pos 1 it).bind fun _ =>
  some (it.raw.getD it.pos 0, ⟨it.raw, it.pos + 1⟩)

/-- `Iterator for NCDataIter<'_, char>`: one byte cast with `as char`
(code point = byte value, no UTF-8 involved). -/
def NCDataIter.nextChar (it : NCDataIter) : Option (Char × NCDataIter) :=
  (check_pos 1 it).bind fun _ =>
  some (Char.ofNat (it.raw.getD it.pos 0), ⟨it.raw, it.pos + 1⟩)

/-- `Iterator for NCDataIter<'_, i16>`. -/
def NCDataIter.nextI16 (it : NCDataIter) : Option (Int × NCDataIter) :=
  (check_pos 2 it).bind fun _ =>
  some (toI16 (it.raw.getD it.pos 0 * 256 + it.raw.getD (it.pos + 1) 0),
    ⟨it.raw, it.pos + 2⟩)

/-- `Iterator for NCDataIter<'_, i32>`. -/
def NCDataIter.nextI32 (it : NCDataIter) : Option (Int × NCDataIter) :=
  (check_pos 4 it).bind fun _ =>
  some (toI32 (beNat ((it.raw.drop it.pos).take 4)), ⟨it.raw, it.pos + 4⟩)

/-- `Iterator for NCDataIter<'_, f32>` (value as 32-bit pattern). -/
def NCDataIter.nextF32 (it : NCDataIter) : Option (Nat × NCDataIter) :=
  (check_pos 4 it).bind fun _ =>
  some (beNat ((it.raw.drop it.pos).take 4), ⟨it.raw, it.pos + 4⟩)

/-- `Iterator for NCDataIter<'_, f64>` (value as 64-bit pattern). -/
def NCDataIter.nextF64 (it : NCDataIter) : Option (Nat × NCDataIter) :=
  (check_pos 8 it).bind fun _ =>
  some (beNat ((it.raw.drop it.pos).take 8), ⟨it.raw, it.pos + 8⟩)

/-- The file shape of spec §8's first end-to-end scenario: magic,
version byte, 4-byte numrecs, then three sections whose 4-byte tag
fields (`t1`, `t2`, `t3`) and 4-byte placeholders (`p1`, `p2`, `p3`)
are arbitrary 32-bit values. -/
def emptyShape (v nr t1 p1 t2 p2 t3 p3 : Nat) : List Nat :=
  [0x43, 0x44, 0x46, v] ++ be4 nr ++ be4 t1 ++ be4 p1 ++ be4 t2 ++ be4 p2 ++
    be4 t3 ++ be4 p3

/-- A concrete version-1 variable descriptor: name `"x"`, no dims, a
4-byte reserved slot, no attributes, type tag 4 (int), `vsize` 4,
offset 0 (the data bytes are the descriptor's own first 4 bytes). -/
def varDescSample : List Nat :=
  [0, 0, 0, 1, 120, 0, 0, 0, 0, 0, 0, 0, 9, 9, 9, 9,
   0, 0, 0, 0, 0, 0, 0, 4, 0, 0, 0, 4, 0, 0, 0, 0]

example : utf8Decode [0x43, 0x44, 0x46] = some ['C', 'D', 'F'] := by decide
example : utf8Decode [0xFF] = none := by decide
example : utf8Decode [0xC3, 0xA9] = some ['é'] := by decide
example : utf8Decode [0xC3] = none := by decide
example : utf8Decode [0xE0, 0x80, 0x80] = none := by decide
example : utf8Decode [0xED, 0xA0, 0x80] = none := by decide
example : read_string ⟨[0, 0, 0, 2, 104, 105, 0, 0], 0⟩ =
    .ok ['h', 'i'] ⟨[0, 0, 0, 2, 104, 105, 0, 0], 8⟩ := by decide

example : NCFile.new ⟨[], 0⟩ = .panicked := by decide
example :
    NCFile.new ⟨[0x43, 0x44, 0x46, 1, 0, 0, 0, 0,
      0, 0, 0, 0, 0, 0, 0, 0, 0, 0, 0, 0, 0, 0, 0, 0,
      0, 0, 0, 0, 0, 0, 0, 0], 0⟩ =
    .ok ⟨1, 0, [], [], []⟩ ⟨[0x43, 0x44, 0x46, 1, 0, 0, 0, 0,
      0, 0, 0, 0, 0, 0, 0, 0, 0, 0, 0, 0, 0, 0, 0, 0,
      0, 0, 0, 0, 0, 0, 0, 0], 32⟩ := by decide

lemma PResult.bind_eq_ok {α β : Type} {m : PResult α} {f : α → Source → PResult β}
    {b : β} {s' : Source} :
    m.bind f = .ok b s' ↔ ∃ a s1, m = .ok a s1 ∧ f a s1 = .ok b s' := by
  cases m with
  | ok a0 s0 =>
    simp only [PResult.bind]
    constructor
    · intro h
      exact ⟨a0, s0, rfl, h⟩
    · rintro ⟨a', s1, heq, h2⟩
      cases heq
      exact h2
  | err e => simp [PResult.bind]
  | panicked => simp [PResult.bind]

lemma beNat_be4 (t : Nat) : beNat (be4 t) = t % 4294967296 := by
  simp [beNat, be4, List.foldl]
  omega

lemma beNat_be4_mod (t : Nat) : beNat (be4 t) % 256 = t % 256 := by
  simp [beNat, be4, List.foldl]
  omega

lemma readExact_ok (s : Source) (n : Nat) (h : s.pos + n ≤ s.data.length) :
    readExact s n = .ok ((s.data.drop s.pos).take n) ⟨s.data, s.pos + n⟩ := by
  simp [readExact, h]

lemma read_u32_ok (s : Source) (h : s.pos + 4 ≤ s.data.length) :
    read_u32 s = .ok (beNat ((s.data.drop s.pos).take 4)) ⟨s.data, s.pos + 4⟩ := by
  simp [read_u32, readExact_ok s 4 h, PResult.bind]

/-- The `else` arm of one `Expect*Section` step: on a tag whose low
byte is not the marker, the 4 tag bytes are consumed, 4 further bytes
are skipped by the explicit seek, and the list stays empty. -/
lemma read_section_skip {α : Type} (marker : Nat) (p : Source → PResult (List α))
    (s : Source) (h4 : s.pos + 4 ≤ s.data.length)
    (hm : beNat ((s.data.drop s.pos).take 4) % 256 ≠ marker) :
    read_section marker p s = .ok [] ⟨s.data, s.pos + 8⟩ := by
  simp only [read_section, read_u32_ok s h4, PResult.bind, seekCurrent, if_neg hm]

lemma read_bytes_length {s : Source} {len : Nat} {bs : List Nat} {s' : Source}
    (h : read_bytes s len = .ok bs s') : bs.length = len := by
  unfold read_bytes read_bytes_padded readExact at h
  by_cases hc : s.pos + (if len % 4 = 0 then len else len + (4 - len % 4)) ≤ s.data.length
  · rw [if_pos hc] at h
    simp only [PResult.bind] at h
    cases h
    have hlen : len ≤ if len % 4 = 0 then len else len + (4 - len % 4) := by
      split <;> omega
    simp only [List.length_take, List.length_drop]
    omega
  · rw [if_neg hc] at h
    simp [PResult.bind] at h

/-- `parseList` over a step of fixed consumption `k` and value function
`g`: success leaves the byte list unchanged, advances the cursor by
`k * n`, and yields the `n` values decoded at stride `k`. -/
lemma parseList_fixed {α : Type} (f : Source → PResult α) (k : Nat)
    (g : List Nat → Nat → α)
    (hf : ∀ s a s', f s = .ok a s' →
      s'.data = s.data ∧ s'.pos = s.pos + k ∧ a = g s.data s.pos) :
    ∀ (n : Nat) (s : Source) (vs : List α) (s' : Source),
      parseList f n s = .ok vs s' →
      s'.data = s.data ∧ s'.pos = s.pos + k * n ∧
      vs = (List.range n).map (fun i => g s.data (s.pos + k * i)) := by
  intro n
  induction n with
  | zero =>
    intro s vs s' h
    simp only [parseList] at h
    cases h
    simp
  | succ n ih =>
    intro s vs s' h
    simp only [parseList] at h
    rw [PResult.bind_eq_ok] at h
    obtain ⟨a, s1, hf0, h⟩ := h
    rw [PResult.bind_eq_ok] at h
    obtain ⟨as, s2, hpl, h⟩ := h
    cases h
    obtain ⟨hd1, hp1, ha⟩ := hf s a s1 hf0
    obtain ⟨hd2, hp2, has⟩ := ih s1 as _ hpl
    refine ⟨by rw [hd2, hd1], ?_, ?_⟩
    · rw [hp2, hp1, Nat.mul_succ]
      omega
    · rw [List.range_succ_eq_map, List.map_cons, List.map_map, Nat.mul_zero,
        Nat.add_zero, ← ha]
      congr 1
      rw [has, hd1, hp1]
      apply List.map_congr_left
      intro i _
      simp only [Function.comp_apply]
      congr 1
      rw [Nat.mul_succ]
      omega

lemma validate_magic_cdf (rest : List Nat) :
    validate_magic_number ⟨67 :: 68 :: 70 :: rest, 0⟩ =
      .ok () ⟨67 :: 68 :: 70 :: rest, 3⟩ := by
  have h : (⟨67 :: 68 :: 70 :: rest, 0⟩ : Source).pos + 3 ≤
      (⟨67 :: 68 :: 70 :: rest, 0⟩ : Source).data.length := by simp
  simp only [validate_magic_number, readExact_ok _ 3 h]
  norm_num [utf8Decode]

lemma read_u8_cons3 (a b c d : Nat) (rest : List Nat) :
    read_u8 ⟨a :: b :: c :: d :: rest, 3⟩ = .ok d ⟨a :: b :: c :: d :: rest, 4⟩ := by
  simp [read_u8, readExact, PResult.bind]

lemma newEmptyShape (v nr t1 p1 t2 p2 t3 p3 : Nat)
    (h1 : t1 % 256 ≠ NC_DIMENSION) (h2 : t2 % 256 ≠ NC_ATTRIBUTE)
    (h3 : t3 % 256 ≠ NC_VARIABLE) :
    NCFile.new ⟨emptyShape v nr t1 p1 t2 p2 t3 p3, 0⟩ =
      .ok ⟨v, nr % 4294967296, [], [], []⟩
        ⟨emptyShape v nr t1 p1 t2 p2 t3 p3, 32⟩ := by
  have e0 : beNat [nr / 16777216 % 256, nr / 65536 % 256, nr / 256 % 256, nr % 256] =
      nr % 4294967296 := beNat_be4 nr
  have e1 : beNat [t1 / 16777216 % 256, t1 / 65536 % 256, t1 / 256 % 256, t1 % 256] % 256 =
      t1 % 256 := beNat_be4_mod t1
  have e2 : beNat [t2 / 16777216 % 256, t2 / 65536 % 256, t2 / 256 % 256, t2 % 256] % 256 =
      t2 % 256 := beNat_be4_mod t2
  have e3 : beNat [t3 / 16777216 % 256, t3 / 65536 % 256, t3 / 256 % 256, t3 % 256] % 256 =
      t3 % 256 := beNat_be4_mod t3
  simp [emptyShape, be4, NCFile.new, PResult.bind, validate_magic_cdf, read_u8_cons3,
    read_u32_ok, read_section_skip, e0, e1, e2, e3, h1, h2, h3]

/-- C1 (counterexample): the claim says a mismatched section tag
consumes exactly its 4 tag bytes and nothing more, so the 20-byte file
`magic ++ version ++ numrecs ++ three 4-byte mismatching tag fields`
would decode to the empty `NCFile` with the cursor at 20.  Instead,
`NCFile::new` fails with an I/O error on that input (the third
section's tag read falls past the end because each earlier section
consumed 8 bytes), and the same file extended to 32 bytes decodes
successfully with the cursor at 32 — 8 bytes per absent section, not 4. -/
theorem C1_counterexample :
    NCFile.new ⟨[0x43, 0x44, 0x46, 1, 0, 0, 0, 0,
      0, 0, 0, 0, 0, 0, 0, 0, 0, 0, 0, 0], 0⟩ = .err .ioError ∧
    NCFile.new ⟨[0x43, 0x44, 0x46, 1, 0, 0, 0, 0,
      0, 0, 0, 0, 0, 0, 0, 0, 0, 0, 0, 0, 0, 0, 0, 0,
      0, 0, 0, 0, 0, 0, 0, 0], 0⟩ =
      .ok ⟨1, 0, [], [], []⟩ ⟨[0x43, 0x44, 0x46, 1, 0, 0, 0, 0,
        0, 0, 0, 0, 0, 0, 0, 0, 0, 0, 0, 0, 0, 0, 0, 0,
        0, 0, 0, 0, 0, 0, 0, 0], 32⟩ := by
  decide

/-- C1 (amended): in `NCFile::new`, for every section whose 4-byte tag
field's low byte does not equal the section's marker, the 4 tag bytes
are consumed AND a further 4-byte placeholder is skipped (8 bytes in
total) before the next section's tag field is read; the section's list
is left empty. -/
theorem C1_absent_section_consumes_tag_and_placeholder {α : Type} (marker : Nat)
    (p : Source → PResult (List α)) (s : Source)
    (h4 : s.pos + 4 ≤ s.data.length)
    (hm : beNat ((s.data.drop s.pos).take 4) % 256 ≠ marker) :
    read_section marker p s = .ok [] ⟨s.data, s.pos + 8⟩ :=
  read_section_skip marker p s h4 hm

/-- Witness for C1's amended theorem at a concrete input: an all-zero
tag field is not the dimension marker, so the section step consumes 8
bytes and yields no dimensions. -/
theorem C1_witness :
    read_section NC_DIMENSION parse_dimlist ⟨[0, 0, 0, 0, 0, 0, 0, 0], 0⟩ =
      .ok [] ⟨[0, 0, 0, 0, 0, 0, 0, 0], 8⟩ :=
  C1_absent_section_consumes_tag_and_placeholder NC_DIMENSION parse_dimlist
    ⟨[0, 0, 0, 0, 0, 0, 0, 0], 0⟩ (by decide) (by decide)

/-- C2: in `NCFile::new`, a section whose tag marker is absent consumes
the 4 tag bytes plus a trailing 4-byte placeholder — 8 bytes in total —
leaving the list empty and the cursor aligned for the next section:
for arbitrary version byte, numrecs field, mismatching tag fields
`t1, t2, t3` and arbitrary placeholder fields, the 32-byte file decodes
to the empty `NCFile` with the cursor at exactly 32. -/
theorem C2_absent_section_consumes_eight_bytes (v nr t1 p1 t2 p2 t3 p3 : Nat)
    (h1 : t1 % 256 ≠ NC_DIMENSION) (h2 : t2 % 256 ≠ NC_ATTRIBUTE)
    (h3 : t3 % 256 ≠ NC_VARIABLE) :
    NCFile.new ⟨emptyShape v nr t1 p1 t2 p2 t3 p3, 0⟩ =
      .ok ⟨v, nr % 4294967296, [], [], []⟩
        ⟨emptyShape v nr t1 p1 t2 p2 t3 p3, 32⟩ :=
  newEmptyShape v nr t1 p1 t2 p2 t3 p3 h1 h2 h3

/-- Witness for C2 at the concrete minimal empty file (spec §8's first
end-to-end scenario): version 1, numrecs 0, all tag fields zero. -/
theorem C2_witness :
    NCFile.new ⟨emptyShape 1 0 0 0 0 0 0 0, 0⟩ =
      .ok ⟨1, 0, [], [], []⟩ ⟨emptyShape 1 0 0 0 0 0 0 0, 32⟩ :=
  C2_absent_section_consumes_eight_bytes 1 0 0 0 0 0 0 0
    (by decide) (by decide) (by decide)

/-- C3 (counterexample): version byte 3 is neither 1 nor 2, yet
`NCFile::new` succeeds and returns an `NCFile` with `version = 3` —
no fatal parse error occurs. -/
theorem C3_counterexample :
    NCFile.new ⟨[0x43, 0x44, 0x46, 3, 0, 0, 0, 0,
      0, 0, 0, 0, 0, 0, 0, 0, 0, 0, 0, 0, 0, 0, 0, 0,
      0, 0, 0, 0, 0, 0, 0, 0], 0⟩ =
      .ok ⟨3, 0, [], [], []⟩ ⟨[0x43, 0x44, 0x46, 3, 0, 0, 0, 0,
        0, 0, 0, 0, 0, 0, 0, 0, 0, 0, 0, 0, 0, 0, 0, 0,
        0, 0, 0, 0, 0, 0, 0, 0], 32⟩ := by
  decide

/-- C3 (amended): `NCFile::new` performs no validation of the version
byte: for EVERY version value `v` (in particular values outside
`{1, 2}`) and every numrecs field, decoding the empty-section file
succeeds and stores `v` unchanged in the result. -/
theorem C3_any_version_accepted (v nr : Nat) :
    NCFile.new ⟨emptyShape v nr 0 0 0 0 0 0, 0⟩ =
      .ok ⟨v, nr % 4294967296, [], [], []⟩ ⟨emptyShape v nr 0 0 0 0 0 0, 32⟩ :=
  newEmptyShape v nr 0 0 0 0 0 0 (by decide) (by decide) (by decide)

/-- C5 (code bug): a source exhausted before the 3 magic bytes makes
`NCFile::new` PANIC — `validate_magic_number` calls
`read_exact(&mut buf).unwrap()` — instead of failing with the
propagated read error the claim (and spec §7) promises.  Every other
primitive read does propagate, as the last two conjuncts show. -/
theorem C5_short_source_panics_in_magic :
    NCFile.new ⟨[], 0⟩ = .panicked ∧
    NCFile.new ⟨[0x43, 0x44], 0⟩ = .panicked ∧
    read_u8 ⟨[], 0⟩ = .err .ioError ∧
    read_u32 ⟨[0, 1], 0⟩ = .err .ioError := by
  decide

@[simp] lemma PResult.ok_bind {α β : Type} (a : α) (s : Source)
    (f : α → Source → PResult β) : (PResult.ok a s).bind f = f a s := rfl

@[simp] lemma PResult.err_bind {α β : Type} (e : PError)
    (f : α → Source → PResult β) : (PResult.err e).bind f = (.err e : PResult β) := rfl

@[simp] lemma PResult.panicked_bind {α β : Type}
    (f : α → Source → PResult β) : (PResult.panicked : PResult α).bind f = .panicked := rfl

lemma read_bytes_data {s : Source} {len : Nat} {bs : List Nat} {s' : Source}
    (h : read_bytes s len = .ok bs s') : s'.data = s.data := by
  unfold read_bytes read_bytes_padded readExact at h
  by_cases hc : s.pos + (if len % 4 = 0 then len else len + (4 - len % 4)) ≤ s.data.length
  · rw [if_pos hc] at h
    simp only [PResult.bind] at h
    cases h
    rfl
  · rw [if_neg hc] at h
    simp [PResult.bind] at h

/-- C6: whenever `parse_var` succeeds, the source cursor on return
equals the position recorded immediately after the offset field was
read (which is exactly the end state `s1` of `parse_var_header`): the
seek to the data offset and the `vsize`-byte capture leave no net
cursor movement, and the captured data block has exactly `vsize`
bytes. -/
theorem C6_parse_var_restores_cursor (version : Nat) (s s1 s2 : Source)
    (name : List Char) (dimids : List Nat) (attrs : List NCAttribute)
    (nctype vsize offset : Nat) (var : NCVariable)
    (hh : parse_var_header version s = .ok (name, dimids, attrs, nctype, vsize, offset) s1)
    (hv : vsize % 4 = 0)
    (hp : parse_var version s = .ok var s2) :
    s2 = s1 ∧ var.data.length = vsize := by
  obtain ⟨d1, p1⟩ := s1
  unfold parse_var at hp
  rw [hh] at hp
  simp only [seekCurrent, seekStart, PResult.ok_bind] at hp
  rw [PResult.bind_eq_ok] at hp
  obtain ⟨bs, s3, hrb, hp⟩ := hp
  have hlen := read_bytes_length hrb
  have hdata := read_bytes_data hrb
  cases hto : typeOfTag nctype with
  | none =>
    rw [hto] at hp
    simp at hp
  | some ty =>
    rw [hto] at hp
    simp only [PResult.bind] at hp
    cases hp
    constructor
    · rw [hdata]
      simp
    · exact hlen

/-- Witness for C6 at the concrete descriptor: the header parse ends at
position 32, the whole `parse_var` returns with the cursor back at 32,
and the captured block has the declared 4 bytes. -/
theorem C6_witness :
    (⟨varDescSample, 32⟩ : Source) = ⟨varDescSample, 32⟩ ∧
    (⟨NCType.int, ['x'], [], [], [0, 0, 0, 1]⟩ : NCVariable).data.length = 4 :=
  C6_parse_var_restores_cursor 1 ⟨varDescSample, 0⟩ ⟨varDescSample, 32⟩
    ⟨varDescSample, 32⟩ ['x'] [] [] 4 4 0
    ⟨NCType.int, ['x'], [], [], [0, 0, 0, 1]⟩ (by decide) (by decide) (by decide)

/-- C7: the `NCDataIter` `next()` contract, at the representative
element sizes 2 (`i16`), 4 (`i32`) and 8 (`f64`): `next()` returns
`none` exactly when `pos + sizeof(T)` exceeds the block length (end of
sequence, no error — this is also what silently drops a trailing
partial element), and otherwise returns the big-endian decoding of the
`sizeof(T)` bytes at `[pos, pos + sizeof(T))` and advances `pos` by
`sizeof(T)`. -/
theorem C7_next_decodes_be_and_advances : ∀ (raw : List Nat) (pos : Nat),
    (NCDataIter.nextI16 ⟨raw, pos⟩ = none ↔ raw.length < pos + 2) ∧
    (pos + 2 ≤ raw.length →
      NCDataIter.nextI16 ⟨raw, pos⟩ =
        some (toI16 (raw.getD pos 0 * 256 + raw.getD (pos + 1) 0), ⟨raw, pos + 2⟩)) ∧
    (NCDataIter.nextI32 ⟨raw, pos⟩ = none ↔ raw.length < pos + 4) ∧
    (pos + 4 ≤ raw.length →
      NCDataIter.nextI32 ⟨raw, pos⟩ =
        some (toI32 (beNat ((raw.drop pos).take 4)), ⟨raw, pos + 4⟩)) ∧
    (NCDataIter.nextF64 ⟨raw, pos⟩ = none ↔ raw.length < pos + 8) ∧
    (pos + 8 ≤ raw.length →
      NCDataIter.nextF64 ⟨raw, pos⟩ =
        some (beNat ((raw.drop pos).take 8), ⟨raw, pos + 8⟩)) := by
  intro raw pos
  refine ⟨?_, fun h => ?_, ?_, fun h => ?_, ?_, fun h => ?_⟩
  · simp only [NCDataIter.nextI16, check_pos]
    split <;> simp <;> omega
  · simp only [NCDataIter.nextI16, check_pos]
    rw [if_neg (by omega)]
    simp [Option.bind]
  · simp only [NCDataIter.nextI32, check_pos]
    split <;> simp <;> omega
  · simp only [NCDataIter.nextI32, check_pos]
    rw [if_neg (by omega)]
    simp [Option.bind]
  · simp only [NCDataIter.nextF64, check_pos]
    split <;> simp <;> omega
  · simp only [NCDataIter.nextF64, check_pos]
    rw [if_neg (by omega)]
    simp [Option.bind]

/-- Witness for C7 on a concrete 5-byte block: a full `i16` element at
position 0 decodes big-endian and advances to 2; at position 4 only one
byte remains, so the iterator is exhausted (the trailing partial
element is dropped). -/
theorem C7_witness :
    NCDataIter.nextI16 ⟨[1, 2, 3, 4, 5], 0⟩ = some (258, ⟨[1, 2, 3, 4, 5], 2⟩) ∧
    NCDataIter.nextI32 ⟨[1, 2, 3, 4, 5], 0⟩ =
      some (16909060, ⟨[1, 2, 3, 4, 5], 4⟩) ∧
    (NCDataIter.nextI16 ⟨[1, 2, 3, 4, 5], 4⟩ = none ↔ (5:Nat) < 4 + 2) :=
  ⟨(C7_next_decodes_be_and_advances [1, 2, 3, 4, 5] 0).2.1 (by decide),
   (C7_next_decodes_be_and_advances [1, 2, 3, 4, 5] 0).2.2.2.1 (by decide),
   (C7_next_decodes_be_and_advances [1, 2, 3, 4, 5] 4).1⟩

lemma read_i16_padded_step : ∀ (s : Source) (a : Int) (s' : Source),
    read_i16_padded s = .ok a s' →
    s'.data = s.data ∧ s'.pos = s.pos + 4 ∧
    a = toI16 (((s.data.drop s.pos).take 4).getD 0 0 * 256 +
      ((s.data.drop s.pos).take 4).getD 1 0) := by
  intro s a s' h
  have h4 : (if (2:Nat) % 4 = 0 then 2 else 2 + (4 - 2 % 4)) = 4 := by norm_num
  unfold read_i16_padded read_bytes_padded readExact at h
  rw [h4] at h
  split at h
  · simp only [PResult.ok_bind] at h
    cases h
    exact ⟨rfl, rfl, rfl⟩
  · simp at h

lemma read_i32_step : ∀ (s : Source) (a : Int) (s' : Source),
    read_i32 s = .ok a s' →
    s'.data = s.data ∧ s'.pos = s.pos + 4 ∧
    a = toI32 (beNat ((s.data.drop s.pos).take 4)) := by
  intro s a s' h
  unfold read_i32 readExact at h
  split at h
  · simp only [PResult.ok_bind] at h
    cases h
    exact ⟨rfl, rfl, rfl⟩
  · simp at h

lemma read_f32_step : ∀ (s : Source) (a : Nat) (s' : Source),
    read_f32 s = .ok a s' →
    s'.data = s.data ∧ s'.pos = s.pos + 4 ∧
    a = beNat ((s.data.drop s.pos).take 4) := by
  intro s a s' h
  unfold read_f32 readExact at h
  split at h
  · simp only [PResult.ok_bind] at h
    cases h
    exact ⟨rfl, rfl, rfl⟩
  · simp at h

lemma read_f64_step : ∀ (s : Source) (a : Nat) (s' : Source),
    read_f64 s = .ok a s' →
    s'.data = s.data ∧ s'.pos = s.pos + 8 ∧
    a = beNat ((s.data.drop s.pos).take 8) := by
  intro s a s' h
  unfold read_f64 readExact at h
  split at h
  · simp only [PResult.ok_bind] at h
    cases h
    exact ⟨rfl, rfl, rfl⟩
  · simp at h

/-- C8: after the count field, a `short` attribute with `n` elements
consumes exactly `4 * n` value bytes, each 16-bit value being decoded
big-endian from the first 2 bytes of its own 4-byte group, while
`int` / `float` arrays consume exactly `4 * n` bytes and `double`
arrays exactly `8 * n` bytes. -/
theorem C8_short_values_padded_per_element : ∀ (n : Nat) (s : Source),
    (∀ vs s', read_i16_padded_list n s = .ok vs s' →
      s'.data = s.data ∧ s'.pos = s.pos + 4 * n ∧
      vs = (List.range n).map (fun i =>
        toI16 (((s.data.drop (s.pos + 4 * i)).take 4).getD 0 0 * 256 +
          ((s.data.drop (s.pos + 4 * i)).take 4).getD 1 0))) ∧
    (∀ vs s', read_i32_list n s = .ok vs s' →
      s'.data = s.data ∧ s'.pos = s.pos + 4 * n) ∧
    (∀ vs s', read_f32_list n s = .ok vs s' →
      s'.data = s.data ∧ s'.pos = s.pos + 4 * n) ∧
    (∀ vs s', read_f64_list n s = .ok vs s' →
      s'.data = s.data ∧ s'.pos = s.pos + 8 * n) := by
  intro n s
  refine ⟨fun vs s' h => ?_, fun vs s' h => ?_, fun vs s' h => ?_, fun vs s' h => ?_⟩
  · exact parseList_fixed read_i16_padded 4
      (fun data pos => toI16 (((data.drop pos).take 4).getD 0 0 * 256 +
        ((data.drop pos).take 4).getD 1 0)) read_i16_padded_step n s vs s' h
  · obtain ⟨h1, h2, _⟩ := parseList_fixed read_i32 4
      (fun data pos => toI32 (beNat ((data.drop pos).take 4))) read_i32_step n s vs s' h
    exact ⟨h1, h2⟩
  · obtain ⟨h1, h2, _⟩ := parseList_fixed read_f32 4
      (fun data pos => beNat ((data.drop pos).take 4)) read_f32_step n s vs s' h
    exact ⟨h1, h2⟩
  · obtain ⟨h1, h2, _⟩ := parseList_fixed read_f64 8
      (fun data pos => beNat ((data.drop pos).take 8)) read_f64_step n s vs s' h
    exact ⟨h1, h2⟩

/-- Witness for C8 on a concrete 8-byte block holding two padded
shorts: values 5 and 263 are taken from the first 2 bytes of each
4-byte group and the cursor lands at `0 + 4 * 2`. -/
theorem C8_witness :
    read_i16_padded_list 2 ⟨[0, 5, 9, 9, 1, 7, 9, 9], 0⟩ =
      .ok [5, 263] ⟨[0, 5, 9, 9, 1, 7, 9, 9], 8⟩ ∧
    (⟨[0, 5, 9, 9, 1, 7, 9, 9], 8⟩ : Source).pos = 0 + 4 * 2 :=
  ⟨by decide,
   ((C8_short_values_padded_per_element 2 ⟨[0, 5, 9, 9, 1, 7, 9, 9], 0⟩).1
     [5, 263] ⟨[0, 5, 9, 9, 1, 7, 9, 9], 8⟩ (by decide)).2.1⟩

lemma drop_shift {α : Type} (l : List α) (p k : Nat) :
    l.drop (p + k) = (l.drop p).drop k := by
  rw [List.drop_drop]

lemma pos_le_of_drop {l xs : List Nat} {p : Nat} {x : Nat}
    (h : l.drop p = x :: xs) : p + 1 + xs.length ≤ l.length := by
  have := congrArg List.length h
  simp only [List.length_drop, List.length_cons] at this
  omega

lemma read_u32_drop {s : Source} {a b c d : Nat} {tail : List Nat}
    (h : s.data.drop s.pos = a :: b :: c :: d :: tail) :
    read_u32 s = .ok (beNat [a, b, c, d]) ⟨s.data, s.pos + 4⟩ := by
  have hle : s.pos + 4 ≤ s.data.length := by
    have := congrArg List.length h
    simp only [List.length_drop, List.length_cons] at this
    omega
  rw [read_u32, readExact_ok _ _ hle, PResult.ok_bind, h]
  rfl

lemma read_string_empty {s : Source} {tail : List Nat}
    (h : s.data.drop s.pos = 0 :: 0 :: 0 :: 0 :: tail) :
    read_string s = .ok [] ⟨s.data, s.pos + 4⟩ := by
  have hle : s.pos + 4 + 0 ≤ s.data.length := by
    have := congrArg List.length h
    simp only [List.length_drop, List.length_cons] at this
    omega
  rw [read_string, read_u32_drop h, PResult.ok_bind]
  have hz : beNat [0, 0, 0, 0] = 0 := rfl
  rw [hz, read_bytes, read_bytes_padded]
  norm_num
  rw [readExact_ok ⟨s.data, s.pos + 4⟩ 0 hle, PResult.ok_bind, PResult.ok_bind]
  rfl

/-- C4 (counterexample): the 32-bit type tag `0x00000104 = 260` lies
outside `{1,..,6}`, yet `parse_attr` accepts it (only the low byte is
compared) and decodes the record as an `int` attribute instead of
failing with a format error. -/
theorem C4_counterexample :
    parse_attr ⟨[0, 0, 0, 1, 120, 0, 0, 0, 0, 0, 1, 4, 0, 0, 0, 1, 0, 0, 0, 7], 0⟩ =
      .ok (.int ['x'] [7])
        ⟨[0, 0, 0, 1, 120, 0, 0, 0, 0, 0, 1, 4, 0, 0, 0, 1, 0, 0, 0, 7], 20⟩ := by
  decide

/-- C4 (amended): a type tag fails with the format error exactly when
its LOW BYTE is outside `{1,..,6}` (tags such as `0x104` are accepted),
and the error's message is the constant string `"unknown type"`, which
does not include the offending value; this holds in both `parse_attr`
and `parse_var`. -/
theorem C4_unknown_low_byte_fails (t : Nat) (rest : List Nat)
    (h : t % 256 = 0 ∨ 7 ≤ t % 256) :
    parse_attr ⟨[0, 0, 0, 0] ++ be4 t ++ rest, 0⟩ =
      .err (.formatError "unknown type") ∧
    parse_var 1 ⟨[0, 0, 0, 0] ++ [0, 0, 0, 0] ++ [0, 0, 0, 0] ++ [0, 0, 0, 0] ++
      be4 t ++ [0, 0, 0, 0] ++ [0, 0, 0, 0] ++ rest, 0⟩ =
      .err (.formatError "unknown type") := by
  have e1 : beNat [t / 16777216 % 256, t / 65536 % 256, t / 256 % 256, t % 256] % 256 =
      t % 256 := beNat_be4_mod t
  have n1 : t % 256 ≠ 1 := by omega
  have n2 : t % 256 ≠ 2 := by omega
  have n3 : t % 256 ≠ 3 := by omega
  have n4 : t % 256 ≠ 4 := by omega
  have n5 : t % 256 ≠ 5 := by omega
  have n6 : t % 256 ≠ 6 := by omega
  constructor
  · have hd0 : (([0, 0, 0, 0] ++ be4 t ++ rest : List Nat)).drop 0 =
        0 :: 0 :: 0 :: 0 :: (t / 16777216 % 256 :: t / 65536 % 256 ::
          t / 256 % 256 :: t % 256 :: rest) := by
      simp [be4]
    have hd4 : (([0, 0, 0, 0] ++ be4 t ++ rest : List Nat)).drop 4 =
        t / 16777216 % 256 :: t / 65536 % 256 :: t / 256 % 256 :: t % 256 :: rest := by
      simp [be4]
    rw [parse_attr, read_string_empty hd0, PResult.ok_bind, read_u32_drop hd4,
      PResult.ok_bind]
    simp only [e1]
    rw [if_neg n1, if_neg n2, if_neg n3, if_neg n4, if_neg n5, if_neg n6]
  · have hd0 : (([0, 0, 0, 0] ++ [0, 0, 0, 0] ++ [0, 0, 0, 0] ++ [0, 0, 0, 0] ++
        be4 t ++ [0, 0, 0, 0] ++ [0, 0, 0, 0] ++ rest : List Nat)).drop 0 =
        0 :: 0 :: 0 :: 0 :: (0 :: 0 :: 0 :: 0 :: (0 :: 0 :: 0 :: 0 ::
          (0 :: 0 :: 0 :: 0 :: (t / 16777216 % 256 :: t / 65536 % 256 ::
            t / 256 % 256 :: t % 256 :: (0 :: 0 :: 0 :: 0 ::
              (0 :: 0 :: 0 :: 0 :: rest)))))) := by
      simp [be4]
    have hd4 : (([0, 0, 0, 0] ++ [0, 0, 0, 0] ++ [0, 0, 0, 0] ++ [0, 0, 0, 0] ++
        be4 t ++ [0, 0, 0, 0] ++ [0, 0, 0, 0] ++ rest : List Nat)).drop 4 =
        0 :: 0 :: 0 :: 0 :: (0 :: 0 :: 0 :: 0 :: (0 :: 0 :: 0 :: 0 ::
          (t / 16777216 % 256 :: t / 65536 % 256 ::
            t / 256 % 256 :: t % 256 :: (0 :: 0 :: 0 :: 0 ::
              (0 :: 0 :: 0 :: 0 :: rest))))) := by
      simp [be4]
    have hd12 : (([0, 0, 0, 0] ++ [0, 0, 0, 0] ++ [0, 0, 0, 0] ++ [0, 0, 0, 0] ++
        be4 t ++ [0, 0, 0, 0] ++ [0, 0, 0, 0] ++ rest : List Nat)).drop 12 =
        0 :: 0 :: 0 :: 0 :: (t / 16777216 % 256 :: t / 65536 % 256 ::
          t / 256 % 256 :: t % 256 :: (0 :: 0 :: 0 :: 0 ::
            (0 :: 0 :: 0 :: 0 :: rest))) := by
      simp [be4]
    have hd16 : (([0, 0, 0, 0] ++ [0, 0, 0, 0] ++ [0, 0, 0, 0] ++ [0, 0, 0, 0] ++
        be4 t ++ [0, 0, 0, 0] ++ [0, 0, 0, 0] ++ rest : List Nat)).drop 16 =
        t / 16777216 % 256 :: t / 65536 % 256 :: t / 256 % 256 :: t % 256 ::
          (0 :: 0 :: 0 :: 0 :: (0 :: 0 :: 0 :: 0 :: rest)) := by
      simp [be4]
    have hd20 : (([0, 0, 0, 0] ++ [0, 0, 0, 0] ++ [0, 0, 0, 0] ++ [0, 0, 0, 0] ++
        be4 t ++ [0, 0, 0, 0] ++ [0, 0, 0, 0] ++ rest : List Nat)).drop 20 =
        0 :: 0 :: 0 :: 0 :: (0 :: 0 :: 0 :: 0 :: rest) := by
      simp [be4]
    have hd24 : (([0, 0, 0, 0] ++ [0, 0, 0, 0] ++ [0, 0, 0, 0] ++ [0, 0, 0, 0] ++
        be4 t ++ [0, 0, 0, 0] ++ [0, 0, 0, 0] ++ rest : List Nat)).drop 24 =
        0 :: 0 :: 0 :: 0 :: rest := by
      simp [be4]
    rw [parse_var, parse_var_header, read_string_empty hd0, PResult.ok_bind,
      read_u32_drop hd4, PResult.ok_bind]
    have hz : beNat [0, 0, 0, 0] = 0 := rfl
    rw [hz]
    rw [show read_u32_list 0 = fun s => (.ok [] s : PResult (List Nat)) from rfl]
    simp only [PResult.ok_bind, seekCurrent]
    rw [parse_attrlist, read_u32_drop hd12, PResult.ok_bind, hz]
    rw [show parseList parse_attr 0 = fun s => (.ok [] s : PResult (List NCAttribute)) from rfl]
    simp only [PResult.ok_bind]
    rw [read_u32_drop hd16, PResult.ok_bind, read_u32_drop hd20, PResult.ok_bind, hz]
    rw [if_pos trivial, read_u32_drop hd24, PResult.ok_bind, hz]
    simp only [PResult.ok_bind, seekCurrent, seekStart]
    rw [read_bytes, read_bytes_padded]
    norm_num
    simp [readExact, typeOfTag, e1, n1, n2, n3, n4, n5, n6]

/-- Witness for C4's amended theorem at the concrete unknown tag 7. -/
theorem C4_witness :
    parse_attr ⟨[0, 0, 0, 0] ++ be4 7 ++ [], 0⟩ =
      .err (.formatError "unknown type") ∧
    parse_var 1 ⟨[0, 0, 0, 0] ++ [0, 0, 0, 0] ++ [0, 0, 0, 0] ++ [0, 0, 0, 0] ++
      be4 7 ++ [0, 0, 0, 0] ++ [0, 0, 0, 0] ++ [], 0⟩ =
      .err (.formatError "unknown type") :=
  C4_unknown_low_byte_fails 7 [] (by decide)

lemma readExact4_drop {s : Source} {a b c d : Nat} {tail : List Nat}
    (h : s.data.drop s.pos = a :: b :: c :: d :: tail) :
    readExact s 4 = .ok [a, b, c, d] ⟨s.data, s.pos + 4⟩ := by
  have hle : s.pos + 4 ≤ s.data.length := by
    have := congrArg List.length h
    simp only [List.length_drop, List.length_cons] at this
    omega
  rw [readExact_ok _ _ hle, h]
  rfl

lemma read_i32_drop {s : Source} {a b c d : Nat} {tail : List Nat}
    (h : s.data.drop s.pos = a :: b :: c :: d :: tail) :
    read_i32 s = .ok (toI32 (beNat [a, b, c, d])) ⟨s.data, s.pos + 4⟩ := by
  rw [read_i32, readExact4_drop h, PResult.ok_bind]

/-- C9: only the least-significant byte of a 32-bit tag field matters.
First conjunct: in each section step of `NCFile::new`, for EVERY 32-bit
tag value `t` the section is treated as present exactly when
`t % 256` equals the section's marker (0x0A dimension, 0x0C attribute,
0x0B variable — the statement is uniform in the marker), and otherwise
8 bytes are skipped.  Second conjunct: a type tag `t` with
`t % 256 = 4` is accepted as `int` whatever its high bytes.  Third
conjunct: concretely, type tag `0x00000104` decodes as an `int`
attribute rather than failing. -/
theorem C9_tags_compared_mod_256 :
    (∀ (α : Type) (marker : Nat) (p : Source → PResult (List α)) (t : Nat)
        (rest : List Nat),
      read_section marker p ⟨be4 t ++ rest, 0⟩ =
        if t % 256 = marker then p ⟨be4 t ++ rest, 4⟩
        else .ok [] ⟨be4 t ++ rest, 8⟩) ∧
    (∀ (t v : Nat) (rest : List Nat), t % 256 = 4 → v < 4294967296 →
      parse_attr ⟨[0, 0, 0, 0] ++ be4 t ++ [0, 0, 0, 1] ++ be4 v ++ rest, 0⟩ =
        .ok (.int [] [toI32 v])
          ⟨[0, 0, 0, 0] ++ be4 t ++ [0, 0, 0, 1] ++ be4 v ++ rest, 16⟩) ∧
    parse_attr ⟨[0, 0, 0, 0, 0, 0, 1, 4, 0, 0, 0, 1, 0, 0, 0, 42], 0⟩ =
      .ok (.int [] [42]) ⟨[0, 0, 0, 0, 0, 0, 1, 4, 0, 0, 0, 1, 0, 0, 0, 42], 16⟩ := by
  refine ⟨?_, ?_, by decide⟩
  · intro α marker p t rest
    have hd0 : ((be4 t ++ rest : List Nat)).drop 0 =
        t / 16777216 % 256 :: t / 65536 % 256 :: t / 256 % 256 :: t % 256 :: rest := by
      simp [be4]
    have e1 : beNat [t / 16777216 % 256, t / 65536 % 256, t / 256 % 256, t % 256] % 256 =
        t % 256 := beNat_be4_mod t
    rw [read_section, read_u32_drop hd0, PResult.ok_bind]
    simp only [e1]
    split
    · rfl
    · simp [seekCurrent]
  · intro t v rest ht hv
    have hd0 : (([0, 0, 0, 0] ++ be4 t ++ [0, 0, 0, 1] ++ be4 v ++ rest : List Nat)).drop 0 =
        0 :: 0 :: 0 :: 0 :: (t / 16777216 % 256 :: t / 65536 % 256 :: t / 256 % 256 ::
          t % 256 :: (0 :: 0 :: 0 :: 1 :: (v / 16777216 % 256 :: v / 65536 % 256 ::
            v / 256 % 256 :: v % 256 :: rest))) := by
      simp [be4]
    have hd4 : (([0, 0, 0, 0] ++ be4 t ++ [0, 0, 0, 1] ++ be4 v ++ rest : List Nat)).drop 4 =
        t / 16777216 % 256 :: t / 65536 % 256 :: t / 256 % 256 :: t % 256 ::
          (0 :: 0 :: 0 :: 1 :: (v / 16777216 % 256 :: v / 65536 % 256 ::
            v / 256 % 256 :: v % 256 :: rest)) := by
      simp [be4]
    have hd8 : (([0, 0, 0, 0] ++ be4 t ++ [0, 0, 0, 1] ++ be4 v ++ rest : List Nat)).drop 8 =
        0 :: 0 :: 0 :: 1 :: (v / 16777216 % 256 :: v / 65536 % 256 ::
          v / 256 % 256 :: v % 256 :: rest) := by
      simp [be4]
    have hd12 : (([0, 0, 0, 0] ++ be4 t ++ [0, 0, 0, 1] ++ be4 v ++ rest : List Nat)).drop 12 =
        v / 16777216 % 256 :: v / 65536 % 256 :: v / 256 % 256 :: v % 256 :: rest := by
      simp [be4]
    have e1 : beNat [t / 16777216 % 256, t / 65536 % 256, t / 256 % 256, t % 256] % 256 =
        t % 256 := beNat_be4_mod t
    have ev : beNat [v / 16777216 % 256, v / 65536 % 256, v / 256 % 256, v % 256] =
        v % 4294967296 := beNat_be4 v
    rw [parse_attr, read_string_empty hd0, PResult.ok_bind, read_u32_drop hd4,
      PResult.ok_bind]
    simp only [e1]
    simp only [ht]
    rw [if_neg (by decide), if_neg (by decide), if_neg (by decide), if_pos trivial]
    rw [read_u32_drop hd8, PResult.ok_bind]
    have h1 : beNat [0, 0, 0, 1] = 1 := rfl
    rw [h1, read_i32_list]
    simp only [parseList]
    rw [read_i32_drop hd12]
    simp only [PResult.ok_bind, parseList]
    rw [ev, Nat.mod_eq_of_lt hv]

/-- Witness for C9: marker comparison at the concrete present tag 0x0A,
and the concrete tag 0x104 = 260 with value 42 accepted as `int`. -/
theorem C9_witness :
    read_section NC_DIMENSION parse_dimlist ⟨be4 10 ++ [0, 0, 0, 0], 0⟩ =
      (if 10 % 256 = NC_DIMENSION then parse_dimlist ⟨be4 10 ++ [0, 0, 0, 0], 4⟩
       else .ok [] ⟨be4 10 ++ [0, 0, 0, 0], 8⟩) ∧
    parse_attr ⟨[0, 0, 0, 0] ++ be4 260 ++ [0, 0, 0, 1] ++ be4 42 ++ [], 0⟩ =
      .ok (.int [] [toI32 42])
        ⟨[0, 0, 0, 0] ++ be4 260 ++ [0, 0, 0, 1] ++ be4 42 ++ [], 16⟩ :=
  ⟨C9_tags_compared_mod_256.1 NCDimension NC_DIMENSION parse_dimlist 10 [0, 0, 0, 0],
   C9_tags_compared_mod_256.2.1 260 42 [] (by decide) (by decide)⟩

/-- C10: a char-typed variable's data view converts each byte
independently to the character with the same code point — no UTF-8
decoding, no failure possible on in-range positions, exhaustion only at
the block end — whereas a char ATTRIBUTE value goes through
`read_string`'s UTF-8 decode and fails with the encoding error whenever
its byte block is not valid UTF-8. -/
theorem C10_char_iter_no_utf8 :
    (∀ (raw : List Nat) (pos : Nat), pos + 1 ≤ raw.length →
      NCDataIter.nextChar ⟨raw, pos⟩ =
        some (Char.ofNat (raw.getD pos 0), ⟨raw, pos + 1⟩)) ∧
    (∀ (raw : List Nat) (pos : Nat),
      NCDataIter.nextChar ⟨raw, pos⟩ = none ↔ raw.length < pos + 1) ∧
    (∀ (c x y z : Nat) (rest : List Nat), utf8Decode [c] = none →
      parse_attr ⟨[0, 0, 0, 0, 0, 0, 0, 2, 0, 0, 0, 1] ++ c :: x :: y :: z :: rest, 0⟩ =
        .err .utf8Error) := by
  refine ⟨fun raw pos h => ?_, fun raw pos => ?_, fun c x y z rest hc => ?_⟩
  · simp only [NCDataIter.nextChar, check_pos]
    rw [if_neg (by omega)]
    simp [Option.bind]
  · simp only [NCDataIter.nextChar, check_pos]
    split <;> simp <;> omega
  · have hd0 : (([0, 0, 0, 0, 0, 0, 0, 2, 0, 0, 0, 1] ++
        c :: x :: y :: z :: rest : List Nat)).drop 0 =
        0 :: 0 :: 0 :: 0 :: (0 :: 0 :: 0 :: 2 :: (0 :: 0 :: 0 :: 1 ::
          (c :: x :: y :: z :: rest))) := by
      simp
    have hd4 : (([0, 0, 0, 0, 0, 0, 0, 2, 0, 0, 0, 1] ++
        c :: x :: y :: z :: rest : List Nat)).drop 4 =
        0 :: 0 :: 0 :: 2 :: (0 :: 0 :: 0 :: 1 :: (c :: x :: y :: z :: rest)) := by
      simp
    have hd8 : (([0, 0, 0, 0, 0, 0, 0, 2, 0, 0, 0, 1] ++
        c :: x :: y :: z :: rest : List Nat)).drop 8 =
        0 :: 0 :: 0 :: 1 :: (c :: x :: y :: z :: rest) := by
      simp
    have hd12 : (([0, 0, 0, 0, 0, 0, 0, 2, 0, 0, 0, 1] ++
        c :: x :: y :: z :: rest : List Nat)).drop 12 = c :: x :: y :: z :: rest := by
      simp
    rw [parse_attr, read_string_empty hd0, PResult.ok_bind, read_u32_drop hd4,
      PResult.ok_bind]
    have h2 : beNat [0, 0, 0, 2] = 2 := rfl
    rw [h2, if_neg (by decide), if_pos rfl]
    rw [read_string, read_u32_drop hd8, PResult.ok_bind]
    have h1 : beNat [0, 0, 0, 1] = 1 := rfl
    rw [h1, read_bytes, read_bytes_padded]
    norm_num
    rw [readExact4_drop hd12, PResult.ok_bind, PResult.ok_bind]
    simp only [List.take_succ_cons, List.take_zero]
    rw [hc]
    rfl

/-- Witness for C10: byte 0xFF is not valid UTF-8, yet the char data
iterator yields the char with code point 255, while the char attribute
decode fails with the encoding error. -/
theorem C10_witness :
    NCDataIter.nextChar ⟨[255], 0⟩ = some (Char.ofNat 255, ⟨[255], 1⟩) ∧
    parse_attr ⟨[0, 0, 0, 0, 0, 0, 0, 2, 0, 0, 0, 1] ++ 255 :: 0 :: 0 :: 0 :: [], 0⟩ =
      .err .utf8Error :=
  ⟨C10_char_iter_no_utf8.1 [255] 0 (by decide),
   C10_char_iter_no_utf8.2.2 255 0 0 0 [] (by decide)⟩
